import Mathlib

/-!
Verification development for the pipeflow ETL system.

The definitions below are a shallow embedding of the components the
properties concern:

* `Value`, `Record` — the data model flowing through the pipeline
  (`src/pipeflow/types`, records are Python dicts of scalar/container
  values).  `Float64` values are outside the embedded fragment: no
  property examined here evaluates a float.
* `Expr`, `evalExpr` — the restricted expression evaluator
  `pipeflow.lib.safe_eval._SafeEval` / `safe_eval` ("the Sandbox"), one
  evaluation arm per `visit_*` method of the source class.
* `rawEval` — a model of the host `eval(...)` call actually performed by
  `FilterTransform.apply` and `DeriveTransform.apply`, embedded on the
  expression fragment the proofs exercise (the host places no
  dunder-attribute restriction; that absence is the point being checked).
* the five transform stages and the `Pipeline.run` executor loop.

Error taxonomy: the source raises `ValueError` at every capability
rejection site of the sandbox; following the system's own taxonomy those
sites are represented by `Err.securityViolation`, while data-level
failures keep their host classes (`nameError`, `typeError`, ...).
`Err.notModelled` marks host behaviour outside the embedded fragment; it
is never produced on the inputs any theorem below evaluates.
-/

set_option maxHeartbeats 1000000

namespace Pipeflow

/-- The tagged data model shared by records and expression results. -/
inductive Value where
  | none : Value
  | bool : Bool → Value
  | int : Int → Value
  | str : String → Value
  | list : List Value → Value
  | tuple : List Value → Value
  | builtin : String → Value
  | pyclass : String → Value
deriving Repr

/-- A record: ordered mapping from field name to value (Python dict). -/
abbrev Record := List (String × Value)

/-- Evaluation/runtime errors of the embedded fragment. -/
inductive Err where
  | securityViolation : String → Err
  | nameError : String → Err
  | typeError : String → Err
  | valueError : String → Err
  | attributeError : String → Err
  | indexError : String → Err
  | zeroDivision : Err
  | hostUnspecified : String → Err
  | notModelled : String → Err
deriving Repr

/-- First value bound to key `k` (Python dict lookup; keys are unique in
any dict-derived record). -/
def recordGet (r : Record) (k : String) : Option Value :=
  (r.find? (fun kv => kv.1 == k)).map (fun kv => kv.2)

/-- Python dict assignment `d[k] = v` on the association-list model:
replaces the value at an existing key in place, otherwise appends. -/
def recordSet (r : Record) (k : String) (v : Value) : Record :=
  match r with
  | [] => [(k, v)]
  | kv :: rest =>
    if kv.1 == k then (k, v) :: rest else kv :: recordSet rest k v

/-- Lookup in a string-keyed table. -/
def lookupVal (t : List (String × Value)) (k : String) : Option Value :=
  (t.find? (fun kv => kv.1 == k)).map (fun kv => kv.2)

/-- Python truthiness (`bool(v)`). -/
def pyTruthy : Value → Bool
  | .none => false
  | .bool b => b
  | .int n => n != 0
  | .str s => s != ""
  | .list vs => !vs.isEmpty
  | .tuple vs => !vs.isEmpty
  | .builtin _ => true
  | .pyclass _ => true

/-- Numeric view: Python treats `bool` as a numeric subtype of `int`. -/
def Value.asNum? : Value → Option Int
  | .bool b => some (if b then 1 else 0)
  | .int n => some n
  | _ => Option.none

mutual

/-- Python `==` on the embedded values: numeric promotion between bool and
int, structural on containers, `False` across types (Python `==` between
unrelated builtin types returns `False`, it does not raise). -/
def valueEq : Value → Value → Bool
  | .none, .none => true
  | .str a, .str b => a == b
  | .list a, .list b => valueListEq a b
  | .tuple a, .tuple b => valueListEq a b
  | .builtin a, .builtin b => a == b
  | .pyclass a, .pyclass b => a == b
  | a, b =>
    match a.asNum?, b.asNum? with
    | some x, some y => x == y
    | _, _ => false

/-- Elementwise equality of value sequences. -/
def valueListEq : List Value → List Value → Bool
  | [], [] => true
  | a :: as', b :: bs' => valueEq a b && valueListEq as' bs'
  | _, _ => false

end

/-- Python ordering on the embedded values: defined between numerics
(bool/int) and between strings; other combinations raise `TypeError`
exactly as the host comparison operators do. -/
def cmpOrd (a b : Value) : Except Err Ordering :=
  match a.asNum?, b.asNum? with
  | some x, some y => .ok (compare x y)
  | _, _ =>
    match a, b with
    | .str x, .str y => .ok (compare x y)
    | _, _ => .error (.typeError "unorderable operand types")

/-- Python `is` on the embedded values: decided for the singleton objects
(`None`, `True`, `False`); identity of other objects is a host
implementation detail and is reported as unspecified. -/
def pyIs : Value → Value → Except Err Bool
  | .none, .none => .ok true
  | .none, _ => .ok false
  | _, .none => .ok false
  | .bool a, .bool b => .ok (a == b)
  | .bool _, _ => .ok false
  | _, .bool _ => .ok false
  | _, _ => .error (.hostUnspecified "object identity of non-singleton values")

/-- Whether `needle` occurs at the start of `hay`. -/
def listPrefixOf : List Char → List Char → Bool
  | [], _ => true
  | _ :: _, [] => false
  | a :: as', b :: bs' => a == b && listPrefixOf as' bs'

/-- Whether `needle` occurs contiguously anywhere in `hay`. -/
def listInfixOf (needle : List Char) : List Char → Bool
  | [] => needle.isEmpty
  | b :: bs' => listPrefixOf needle (b :: bs') || listInfixOf needle bs'

/-- Python substring test `sub in hay`. -/
def strContains (hay sub : String) : Bool :=
  listInfixOf sub.data hay.data

/-- `name.startswith("__")`: the double-underscore sentinel test used at
every capability check site. -/
def isDunderName (s : String) : Bool :=
  listPrefixOf ['_', '_'] s.data

/-- Python `in`: substring for string receivers, element membership (by
`==`) for lists and tuples, `TypeError` otherwise. -/
def pyIn (a b : Value) : Except Err Bool :=
  match b with
  | .str s =>
    match a with
    | .str sub => .ok (strContains s sub)
    | _ => .error (.typeError "in <string> requires string as left operand")
  | .list vs => .ok (vs.any (fun x => valueEq x a))
  | .tuple vs => .ok (vs.any (fun x => valueEq x a))
  | _ => .error (.typeError "argument is not iterable")

/-- Allowed literal constants (`visit_Constant` admits int, float, str,
bool, None; the float arm is outside the embedded fragment). -/
inductive Const where
  | int : Int → Const
  | str : String → Const
  | bool : Bool → Const
  | none : Const
deriving Repr

/-- The value of a literal constant. -/
def Const.toValue : Const → Value
  | .int n => .int n
  | .str s => .str s
  | .bool b => .bool b
  | .none => .none

/-- Comparison operators (the keys of `_CMP_OPS`; the table covers every
host comparison operator, so the `Unsupported comparison` arm of
`visit_Compare` is unreachable). -/
inductive CmpOp where
  | eq | ne | lt | le | gt | ge | isOp | isNotOp | inOp | notInOp
deriving Repr

/-- Binary operators of the host expression grammar; only the first six
appear in `_BIN_OPS`, the rest fall to the `Unsupported binary operator`
rejection. -/
inductive BinOp where
  | add | sub | mult | div | floorDiv | mod
  | pow | bitAnd | bitOr | bitXor | lshift | rshift
deriving Repr

/-- Unary operators; `invert` (`~`) is absent from `_UNARY_OPS`. -/
inductive UnOp where
  | uadd | usub | notOp | invert
deriving Repr

/-- Boolean connectives (`_BOOL_OPS`). -/
inductive BoolK where
  | andOp | orOp
deriving Repr

/-- The expression AST walked by `_SafeEval`, one constructor per node
kind the visitor handles (`JoinedStr`/`Dict` literals are outside the
embedded fragment; any node kind without a visitor arm is rejected by
`generic_visit` in the source and has no constructor here). -/
inductive Expr where
  | const : Const → Expr
  | name : String → Expr
  | attribute : Expr → String → Expr
  | subscript : Expr → Expr → Expr
  | binOp : Expr → BinOp → Expr → Expr
  | unaryOp : UnOp → Expr → Expr
  | boolOp : BoolK → List Expr → Expr
  | compare : Expr → List (CmpOp × Expr) → Expr
  | call : Expr → List Expr → Expr
  | listLit : List Expr → Expr
  | tupleLit : List Expr → Expr
  | ifExp : Expr → Expr → Expr → Expr
deriving Repr

/-- `_SAFE_STR_METHODS`: whitelisted string methods. -/
def SAFE_STR_METHODS : List String :=
  ["lower", "upper", "strip", "startswith", "endswith",
   "lstrip", "rstrip", "title", "replace", "split"]

/-- `_SAFE_BUILTINS`: the fixed builtin table of the sandbox. -/
def SAFE_BUILTINS : List (String × Value) :=
  [("len", .builtin "len"), ("str", .builtin "str"), ("int", .builtin "int"),
   ("float", .builtin "float"), ("bool", .builtin "bool"), ("abs", .builtin "abs"),
   ("min", .builtin "min"), ("max", .builtin "max"), ("round", .builtin "round"),
   ("True", .bool true), ("False", .bool false), ("None", .none)]

/-- The explicit blacklist checked first in the free-function arm of
`visit_Call`. -/
def CALL_BLACKLIST : List String :=
  ["eval", "exec", "compile", "type", "__import__", "globals", "locals",
   "getattr", "setattr", "delattr", "open", "input", "breakpoint"]

/-- Only function objects from the builtin table are callable; the table
entries `True`, `False`, `None` are data and fail the host `callable`
test in `visit_Call`. -/
def isCallableValue : Value → Bool
  | .builtin _ => true
  | _ => false

/-- Python index normalization for sequence subscripts. -/
def pyIndex (n : Int) (len : Nat) : Option Nat :=
  let i := if n < 0 then n + (len : Int) else n
  if 0 ≤ i ∧ i < (len : Int) then some i.toNat else Option.none

/-- Host subscript `value[key]` on the embedded values. -/
def pySubscript (v k : Value) : Except Err Value :=
  match v with
  | .list vs =>
    match k.asNum? with
    | some n =>
      match pyIndex n vs.length with
      | some i => .ok (vs.getD i .none)
      | Option.none => .error (.indexError "list index out of range")
    | Option.none => .error (.typeError "list indices must be integers")
  | .tuple vs =>
    match k.asNum? with
    | some n =>
      match pyIndex n vs.length with
      | some i => .ok (vs.getD i .none)
      | Option.none => .error (.indexError "tuple index out of range")
    | Option.none => .error (.typeError "tuple indices must be integers")
  | .str s =>
    match k.asNum? with
    | some n =>
      match pyIndex n s.length with
      | some i => .ok (.str (String.mk [s.data.getD i ' ']))
      | Option.none => .error (.indexError "string index out of range")
    | Option.none => .error (.typeError "string indices must be integers")
  | _ => .error (.typeError "object is not subscriptable")

/-- String replication `s * n` (Python repeats, empty for n ≤ 0). -/
def strRepeat (s : String) (n : Int) : String :=
  (List.replicate n.toNat s).foldl (fun a b => a ++ b) ""

/-- The six supported binary operators (`_BIN_OPS`); true division is a
Float64 producer and thus outside the embedded fragment; operators
missing from the table are rejected exactly as in `visit_BinOp`. -/
def applyBin : BinOp → Value → Value → Except Err Value
  | .add, a, b =>
    match a.asNum?, b.asNum? with
    | some x, some y => .ok (.int (x + y))
    | _, _ =>
      match a, b with
      | .str x, .str y => .ok (.str (x ++ y))
      | .list x, .list y => .ok (.list (x ++ y))
      | .tuple x, .tuple y => .ok (.tuple (x ++ y))
      | _, _ => .error (.typeError "unsupported operand types for +")
  | .sub, a, b =>
    match a.asNum?, b.asNum? with
    | some x, some y => .ok (.int (x - y))
    | _, _ => .error (.typeError "unsupported operand types for -")
  | .mult, a, b =>
    match a.asNum?, b.asNum? with
    | some x, some y => .ok (.int (x * y))
    | _, _ =>
      match a, b with
      | .str s, _ =>
        match b.asNum? with
        | some n => .ok (.str (strRepeat s n))
        | _ => .error (.typeError "unsupported operand types for *")
      | _, .str s =>
        match a.asNum? with
        | some n => .ok (.str (strRepeat s n))
        | _ => .error (.typeError "unsupported operand types for *")
      | _, _ => .error (.typeError "unsupported operand types for *")
  | .div, _, _ => .error (.notModelled "true division produces Float64")
  | .floorDiv, a, b =>
    match a.asNum?, b.asNum? with
    | some x, some y =>
      if y == 0 then .error .zeroDivision else .ok (.int (Int.fdiv x y))
    | _, _ => .error (.typeError "unsupported operand types for //")
  | .mod, a, b =>
    match a.asNum?, b.asNum? with
    | some x, some y =>
      if y == 0 then .error .zeroDivision else .ok (.int (Int.fmod x y))
    | _, _ => .error (.typeError "unsupported operand types for %")
  | _, _, _ => .error (.securityViolation "Unsupported binary operator")

/-- `_UNARY_OPS`: `+`, `-`, `not`; `~` is rejected as unsupported. -/
def applyUnary : UnOp → Value → Except Err Value
  | .uadd, v =>
    match v.asNum? with
    | some x => .ok (.int x)
    | _ => .error (.typeError "bad operand type for unary +")
  | .usub, v =>
    match v.asNum? with
    | some x => .ok (.int (-x))
    | _ => .error (.typeError "bad operand type for unary -")
  | .notOp, v => .ok (.bool (!pyTruthy v))
  | .invert, _ => .error (.securityViolation "Unsupported unary operator")

/-- One pairwise comparison (`_CMP_OPS` applied by `visit_Compare`). -/
def applyCmp : CmpOp → Value → Value → Except Err Bool
  | .eq, a, b => .ok (valueEq a b)
  | .ne, a, b => .ok (!valueEq a b)
  | .lt, a, b => do
    let o ← cmpOrd a b
    .ok (o == Ordering.lt)
  | .le, a, b => do
    let o ← cmpOrd a b
    .ok (o != Ordering.gt)
  | .gt, a, b => do
    let o ← cmpOrd a b
    .ok (o == Ordering.gt)
  | .ge, a, b => do
    let o ← cmpOrd a b
    .ok (o != Ordering.lt)
  | .isOp, a, b => pyIs a b
  | .isNotOp, a, b => do
    let r ← pyIs a b
    .ok (!r)
  | .inOp, a, b => pyIn a b
  | .notInOp, a, b => do
    let r ← pyIn a b
    .ok (!r)

/-- Python `str(v)` on scalar values (container/function stringification
is outside the embedded fragment). -/
def pyStr : Value → Except Err Value
  | .none => .ok (.str "None")
  | .bool b => .ok (.str (if b then "True" else "False"))
  | .int n => .ok (.str (toString n))
  | .str s => .ok (.str s)
  | _ => .error (.notModelled "str() of containers/functions")

/-- Python `int(v)` argument handling on the embedded values: identity on
ints, 0/1 on bools, decimal parse (optional sign, surrounding blanks) on
strings. -/
def pyToInt : Value → Except Err Value
  | .int n => .ok (.int n)
  | .bool b => .ok (.int (if b then 1 else 0))
  | .str s =>
    match s.trim.toInt? with
    | some n => .ok (.int n)
    | Option.none => .error (.valueError ("invalid literal for int(): " ++ s))
  | _ => .error (.typeError "int() argument must be a string or a number")

/-- Fold of the host min/max scan over the remaining candidates. -/
def pyMinMaxFold (wantMax : Bool) (acc : Value) : List Value → Except Err Value
  | [] => .ok acc
  | w :: rest => do
    let o ← cmpOrd w acc
    pyMinMaxFold wantMax
      (if (if wantMax then o == Ordering.gt else o == Ordering.lt) then w else acc) rest

/-- Minimum/maximum of the already-evaluated arguments under the host
ordering, as `min(a, b, ...)`/`max(a, b, ...)`/`min(seq)` compute it. -/
def pyMinMax (wantMax : Bool) (args : List Value) : Except Err Value :=
  match args with
  | [] => .error (.typeError "expected at least 1 argument")
  | [.list (x :: xs)] => pyMinMaxFold wantMax x xs
  | [.tuple (x :: xs)] => pyMinMaxFold wantMax x xs
  | [.list []] => .error (.valueError "arg is an empty sequence")
  | [.tuple []] => .error (.valueError "arg is an empty sequence")
  | [_] => .error (.typeError "value is not iterable")
  | v :: rest => pyMinMaxFold wantMax v rest

/-- The callable entries of `_SAFE_BUILTINS`, applied to evaluated
arguments (host behaviour of each builtin on the embedded values;
`float`/`round` interact with Float64 and are outside the fragment except
where exact). -/
def applyBuiltin (name : String) (args : List Value) : Except Err Value :=
  match name, args with
  | "len", [.str s] => .ok (.int (s.length : Int))
  | "len", [.list vs] => .ok (.int (vs.length : Int))
  | "len", [.tuple vs] => .ok (.int (vs.length : Int))
  | "len", [_] => .error (.typeError "object has no len()")
  | "str", [] => .ok (.str "")
  | "str", [v] => pyStr v
  | "int", [] => .ok (.int 0)
  | "int", [v] => pyToInt v
  | "bool", [] => .ok (.bool false)
  | "bool", [v] => .ok (.bool (pyTruthy v))
  | "abs", [v] =>
    match v.asNum? with
    | some x => .ok (.int (Int.natAbs x : Int))
    | _ => .error (.typeError "bad operand type for abs()")
  | "min", vs => pyMinMax false vs
  | "max", vs => pyMinMax true vs
  | "round", [v] =>
    match v.asNum? with
    | some x => .ok (.int x)
    | _ => .error (.notModelled "round() beyond integral values")
  | "float", _ => .error (.notModelled "float() produces Float64")
  | _, _ => .error (.typeError "wrong number of arguments")

/-- Python's whitespace strip over the character list. -/
def stripLeft (cs : List Char) : List Char :=
  cs.dropWhile (fun c => c.isWhitespace)

/-- Strip trailing whitespace. -/
def stripRight (cs : List Char) : List Char :=
  (stripLeft cs.reverse).reverse

/-- Python `str.strip()`. -/
def pyStrip (s : String) : String :=
  String.mk (stripRight (stripLeft s.data))

/-- Python `str.title()`: first letter of each alphabetic run uppercased,
the rest lowercased. -/
def pyTitle (s : String) : String :=
  let step := fun (acc : List Char × Bool) (c : Char) =>
    if c.isAlpha then
      ((if acc.2 then c.toLower else c.toUpper) :: acc.1, true)
    else
      (c :: acc.1, false)
  String.mk ((s.data.foldl step ([], false)).1.reverse)

/-- The whitelisted string methods of `_SAFE_STR_METHODS`, applied to a
string receiver with evaluated arguments. -/
def applyStrMethod (s : String) (m : String) (args : List Value) : Except Err Value :=
  match m, args with
  | "lower", [] => .ok (.str s.toLower)
  | "upper", [] => .ok (.str s.toUpper)
  | "strip", [] => .ok (.str (pyStrip s))
  | "lstrip", [] => .ok (.str (String.mk (stripLeft s.data)))
  | "rstrip", [] => .ok (.str (String.mk (stripRight s.data)))
  | "title", [] => .ok (.str (pyTitle s))
  | "startswith", [.str p] => .ok (.bool (listPrefixOf p.data s.data))
  | "endswith", [.str p] => .ok (.bool (listPrefixOf p.data.reverse s.data.reverse))
  | "replace", [.str old, .str new] =>
    if old == "" then .error (.notModelled "replace with empty pattern")
    else .ok (.str (s.replace old new))
  | "split", [] =>
    .ok (.list (((s.split (fun c => c.isWhitespace)).filter
      (fun p => p != "")).map (fun p => .str p)))
  | "split", [.str sep] =>
    if sep == "" then .error (.valueError "empty separator")
    else .ok (.list ((s.splitOn sep).map (fun p => .str p)))
  | _, _ => .error (.typeError "wrong arguments for string method")

/-- Host `getattr(value, attr)` reached from `visit_Attribute` after the
dunder check: on the embedded data values the reachable non-dunder
attributes are the string methods (returned as bound-function values);
anything else raises `AttributeError`. -/
def sandboxGetattr (v : Value) (attr : String) : Except Err Value :=
  match v with
  | .str _ =>
    if SAFE_STR_METHODS.contains attr then .ok (.builtin ("str." ++ attr))
    else .error (.attributeError attr)
  | _ => .error (.attributeError attr)

mutual

/-- The Sandbox evaluator: `_SafeEval.visit`, one arm per `visit_*`
method, evaluated against `env` (the record supplied as the variable
scope).  `visit_Name` consults the builtin table before the bindings;
`visit_Attribute` and both arms of `visit_Call` reject a
double-underscore name before touching receiver or arguments. -/
def evalExpr : Expr → Record → Except Err Value
  | .const c, _ => .ok c.toValue
  | .name n, env =>
    match lookupVal SAFE_BUILTINS n with
    | some v => .ok v
    | Option.none =>
      match recordGet env n with
      | some v => .ok v
      | Option.none => .error (.nameError n)
  | .attribute e attr, env =>
    if isDunderName attr then
      .error (.securityViolation
        ("Access to dunder attribute " ++ attr ++ " is not allowed"))
    else do
      let v ← evalExpr e env
      sandboxGetattr v attr
  | .subscript e idx, env => do
    let v ← evalExpr e env
    let k ← evalExpr idx env
    pySubscript v k
  | .binOp l op r, env => do
    let a ← evalExpr l env
    let b ← evalExpr r env
    applyBin op a b
  | .unaryOp op e, env => do
    let v ← evalExpr e env
    applyUnary op v
  | .boolOp .andOp es, env => evalAnd es (.bool true) env
  | .boolOp .orOp es, env => evalOr es (.bool false) env
  | .compare l pairs, env => do
    let v ← evalExpr l env
    evalCompareChain v pairs env
  | .call f args, env =>
    match f with
    | .attribute obj m =>
      if isDunderName m then
        .error (.securityViolation
          ("Call to dunder method " ++ m ++ " is not allowed"))
      else do
        let recv ← evalExpr obj env
        match recv with
        | .str s =>
          if SAFE_STR_METHODS.contains m then do
            let vs ← evalArgs args env
            applyStrMethod s m vs
          else
            .error (.securityViolation
              ("Method call ." ++ m ++ "() is not allowed"))
        | _ =>
          .error (.securityViolation
            ("Method call ." ++ m ++ "() is not allowed"))
    | .name fname =>
      if CALL_BLACKLIST.contains fname then
        .error (.securityViolation ("Call to " ++ fname ++ " is not allowed"))
      else
        match lookupVal SAFE_BUILTINS fname with
        | some fv =>
          if isCallableValue fv then do
            let vs ← evalArgs args env
            applyBuiltin fname vs
          else
            .error (.securityViolation ("Call to " ++ fname ++ " is not allowed"))
        | Option.none =>
          .error (.securityViolation ("Call to " ++ fname ++ " is not allowed"))
    | _ => .error (.securityViolation "Unsupported call expression")
  | .listLit es, env => do
    let vs ← evalArgs es env
    .ok (.list vs)
  | .tupleLit es, env => do
    let vs ← evalArgs es env
    .ok (.tuple vs)
  | .ifExp t b o, env => do
    let c ← evalExpr t env
    if pyTruthy c then evalExpr b env else evalExpr o env

/-- Left-to-right evaluation of an argument/element list. -/
def evalArgs : List Expr → Record → Except Err (List Value)
  | [], _ => .ok []
  | e :: es, env => do
    let v ← evalExpr e env
    let vs ← evalArgs es env
    .ok (v :: vs)

/-- `visit_BoolOp`, `and` arm: result starts at `True`, each operand is
evaluated in turn, the first falsy operand's value (or the last operand's
value) is returned. -/
def evalAnd : List Expr → Value → Record → Except Err Value
  | [], acc, _ => .ok acc
  | e :: es, _, env => do
    let v ← evalExpr e env
    if pyTruthy v then evalAnd es v env else .ok v

/-- `visit_BoolOp`, `or` arm: dual of `evalAnd`, starting at `False`. -/
def evalOr : List Expr → Value → Record → Except Err Value
  | [], acc, _ => .ok acc
  | e :: es, _, env => do
    let v ← evalExpr e env
    if pyTruthy v then .ok v else evalOr es v env

/-- `visit_Compare`: pairwise left-to-right, each comparand reused as the
next left operand, `False` returned at the first failing pair (the
remaining comparands are not evaluated), `True` after the last pair. -/
def evalCompareChain : Value → List (CmpOp × Expr) → Record → Except Err Value
  | _, [], _ => .ok (.bool true)
  | left, (op, c) :: rest, env => do
    let right ← evalExpr c env
    let b ← applyCmp op left right
    if b then evalCompareChain right rest env else .ok (.bool false)

end

/-- The reduced builtin table `FilterTransform.apply` passes to the host
`eval` as `__builtins__` (note: no `bool`, no `round`). -/
def FILTER_BUILTINS : List (String × Value) :=
  [("len", .builtin "len"), ("str", .builtin "str"), ("int", .builtin "int"),
   ("float", .builtin "float"), ("abs", .builtin "abs"), ("min", .builtin "min"),
   ("max", .builtin "max"), ("True", .bool true), ("False", .bool false),
   ("None", .none)]

/-- Host class name of a value (`type(v).__name__`). -/
def pyTypeName : Value → String
  | .none => "NoneType"
  | .bool _ => "bool"
  | .int _ => "int"
  | .str _ => "str"
  | .list _ => "list"
  | .tuple _ => "tuple"
  | .builtin _ => "builtin_function_or_method"
  | .pyclass _ => "type"

/-- Host `getattr` as reachable from the unrestricted `eval` used by the
filter/derive stages, embedded for the `__class__` attribute (which the
host resolves on every object, yielding its class). -/
def rawGetattr (v : Value) (attr : String) : Except Err Value :=
  if attr == "__class__" then .ok (.pyclass (pyTypeName v))
  else .error (.notModelled ("host getattr beyond __class__: " ++ attr))

/-- Model of the host `eval(condition, safe_globals, record)` call in
`FilterTransform.apply`, embedded on the expression fragment the proofs
exercise: literals, names (locals — the record — first, then the reduced
builtin table), and attribute access, on which the host performs **no**
double-underscore check. -/
def rawEval : Expr → Record → Except Err Value
  | .const c, _ => .ok c.toValue
  | .name n, env =>
    match recordGet env n with
    | some v => .ok v
    | Option.none =>
      match lookupVal FILTER_BUILTINS n with
      | some v => .ok v
      | Option.none => .error (.nameError n)
  | .attribute e attr, env => do
    let v ← rawEval e env
    rawGetattr v attr
  | _, _ => .error (.notModelled "host eval beyond the embedded fragment")

/-- `FilterTransform.__init__` stores the condition string unexamined. -/
structure FilterTransform where
  condition : String

/-- Stage construction: a plain field assignment, total, no validation. -/
def FilterTransform.init (condition : String) : FilterTransform :=
  ⟨condition⟩

/-- `FilterTransform.apply` with the host parse of the stored condition
string given as `condAst`: evaluates through the host `eval` (not the
Sandbox), returns the record if truthy, `None` if falsy, and wraps any
evaluation exception in `ValueError`. -/
def FilterTransform.applyAst (condAst : Expr) (record : Record) :
    Except Err (Option Record) :=
  match rawEval condAst record with
  | .ok v => .ok (if pyTruthy v then some record else Option.none)
  | .error _ => .error (.valueError "Failed to evaluate filter condition")

/-- `DeriveTransform` holds the split target/expression strings. -/
structure DeriveTransform where
  target : String
  expr : String

/-- Character-level split at the first occurrence of `sep`. -/
def splitFirstAux (sep : Char) : List Char → Option (List Char × List Char)
  | [] => Option.none
  | c :: cs =>
    if c == sep then some ([], cs)
    else
      match splitFirstAux sep cs with
      | some (l, r) => some (c :: l, r)
      | Option.none => Option.none

/-- Python `s.split(sep, 1)`: `[s]` when `sep` is absent, otherwise the
parts before and after the first occurrence. -/
def pySplitOnce (s : String) (sep : Char) : List String :=
  match splitFirstAux sep s.data with
  | some (l, r) => [String.mk l, String.mk r]
  | Option.none => [s]

/-- `DeriveTransform.__init__`: raises `ValueError` when the expression
contains no `=`; otherwise splits at the first `=` and strips both
parts. -/
def DeriveTransform.init (expression : String) : Except Err DeriveTransform :=
  if strContains expression "=" then
    let parts := pySplitOnce expression '='
    .ok ⟨pyStrip (parts.getD 0 ""), pyStrip (parts.getD 1 "")⟩
  else
    .error (.valueError ("Derive expression must contain '=': " ++ expression))

/-- `DeriveTransform.apply`, parameterized by the host evaluation of the
right-hand expression against the bindings (`result = dict(record)` is
fresh, so the bindings seen by the evaluation equal the input record):
returns the copy with the target field assigned, wrapping any evaluation
exception in `ValueError`. -/
def DeriveTransform.applyWith (t : DeriveTransform)
    (evalFn : String → Record → Except Err Value) (record : Record) :
    Except Err Record :=
  match evalFn t.expr record with
  | .ok v => .ok (recordSet record t.target v)
  | .error _ =>
    .error (.valueError ("Failed to evaluate derive expression " ++ t.expr))

/-- `CAST_MAP.get(type_name)`: the caster bound to a type tag, `none` for
an unknown tag.  The `float`/`datetime` casters build values outside the
embedded fragment; no property here applies them. -/
def castMapGet (typeName : String) : Option (Value → Except Err Value) :=
  match typeName with
  | "int" => some pyToInt
  | "float" => some (fun _ => .error (.notModelled "Float64 values"))
  | "str" => some pyStr
  | "bool" => some (fun v => .ok (.bool (pyTruthy v)))
  | "datetime" => some (fun _ => .error (.notModelled "datetime values"))
  | _ => Option.none

/-- `CastTransform.__init__` stores the column table unexamined. -/
structure CastTransform where
  columns : List (String × String)

/-- Stage construction: a plain field assignment, total, no validation of
the type tags. -/
def CastTransform.init (columns : List (String × String)) : CastTransform :=
  ⟨columns⟩

/-- The per-column loop of `CastTransform.apply`: a configured column
present with a non-`None` value is cast (unknown tag → `ValueError`
`Unknown cast type`, caster failure → `ValueError` `Cannot cast`);
missing columns and `None` values are left untouched. -/
def castColumns : List (String × String) → Record → Except Err Record
  | [], result => .ok result
  | (col, typeName) :: rest, result =>
    match recordGet result col with
    | some Value.none => castColumns rest result
    | some v =>
      match castMapGet typeName with
      | Option.none => .error (.valueError ("Unknown cast type: " ++ typeName))
      | some caster =>
        match caster v with
        | .ok v' => castColumns rest (recordSet result col v')
        | .error _ =>
          .error (.valueError
            ("Cannot cast column " ++ col ++ " to " ++ typeName))
    | Option.none => castColumns rest result

/-- `CastTransform.apply`: copies the record and casts each configured
column in table order. -/
def CastTransform.apply (t : CastTransform) (record : Record) :
    Except Err Record :=
  castColumns t.columns record

/-- `RenameTransform` holds the old-name → new-name mapping. -/
structure RenameTransform where
  mapping : List (String × String)

/-- Lookup in a string-to-string table. -/
def lookupStr (t : List (String × String)) (k : String) : Option String :=
  (t.find? (fun kv => kv.1 == k)).map (fun kv => kv.2)

/-- `self.mapping.get(k, k)`. -/
def mappingGetD (m : List (String × String)) (k : String) : String :=
  (lookupStr m k).getD k

/-- `RenameTransform.apply`: the dict comprehension
`{mapping.get(k, k): v for k, v in record.items()}` — a fresh dict built
by successive insertion over the **record's** iteration order, so a later
record entry whose renamed key collides overwrites the earlier value. -/
def RenameTransform.apply (t : RenameTransform) (record : Record) : Record :=
  record.foldl (fun acc kv => recordSet acc (mappingGetD t.mapping kv.1) kv.2) []

/-- `DeduplicateTransform`: key columns plus the seen-set, the only
mutable per-stage state (modelled as an explicit field threaded through
`apply`). -/
structure DeduplicateTransform where
  key : List String
  seen : List (List Value)

/-- Fresh stage with an empty seen-set. -/
def DeduplicateTransform.init (key : List String) : DeduplicateTransform :=
  ⟨key, []⟩

/-- `tuple(record.get(k) for k in self.key)`: the key tuple, with a
missing field contributing the host null (indistinguishable from a stored
`None`, exactly as `dict.get` makes it). -/
def keyTupleOf (key : List String) (record : Record) : List Value :=
  key.map (fun k => (recordGet record k).getD Value.none)

/-- Membership of a key tuple in the seen-set (host `in` on a set of
tuples compares by `==`). -/
def seenContains (seen : List (List Value)) (k : List Value) : Bool :=
  seen.any (fun s => valueListEq s k)

/-- `DeduplicateTransform.apply`: `None` for a record whose key tuple was
already seen, otherwise the record unchanged with the key recorded. -/
def DeduplicateTransform.apply (t : DeduplicateTransform) (record : Record) :
    Option Record × DeduplicateTransform :=
  let kv := keyTupleOf t.key record
  if seenContains t.seen kv then (Option.none, t)
  else (some record, { t with seen := kv :: t.seen })

/-- `DeduplicateTransform.reset`: clears the seen-set. -/
def DeduplicateTransform.reset (t : DeduplicateTransform) : DeduplicateTransform :=
  { t with seen := [] }

/-- The stage applied to each record of a list in order, threading the
seen-set. -/
def dedupRun (t : DeduplicateTransform) :
    List Record → List (Option Record) × DeduplicateTransform
  | [] => ([], t)
  | r :: rs =>
    let step := t.apply r
    let rest := dedupRun step.2 rs
    (step.1 :: rest.1, rest.2)

mutual

/-- Canonical form of a value under Python `==`: bools collapse to their
integer value, containers canonicalize elementwise.  Two values are `==`
exactly when their canonical forms coincide. -/
def canon : Value → Value
  | .bool b => .int (if b then 1 else 0)
  | .int n => .int n
  | .none => .none
  | .str s => .str s
  | .builtin s => .builtin s
  | .pyclass s => .pyclass s
  | .list vs => .list (canonList vs)
  | .tuple vs => .tuple (canonList vs)

/-- Elementwise canonicalization. -/
def canonList : List Value → List Value
  | [] => []
  | v :: vs => canon v :: canonList vs

end

mutual

/-- The claim-side notion "the expression contains an attribute access,
method call, or call whose name begins with the double-underscore
sentinel, or calls a free function not in the builtin table", written
from the specification's words for comparison with the evaluator. -/
def specContainsDisallowed : Expr → Bool
  | .const _ => false
  | .name _ => false
  | .attribute e a => isDunderName a || specContainsDisallowed e
  | .subscript a b => specContainsDisallowed a || specContainsDisallowed b
  | .binOp l _ r => specContainsDisallowed l || specContainsDisallowed r
  | .unaryOp _ e => specContainsDisallowed e
  | .boolOp _ es => specAnyDisallowed es
  | .compare l ps => specContainsDisallowed l || specAnyDisallowedPairs ps
  | .call f as =>
    (match f with
     | .attribute e m => isDunderName m || specContainsDisallowed e
     | .name fn => isDunderName fn || !(lookupVal SAFE_BUILTINS fn).isSome
     | g => specContainsDisallowed g) || specAnyDisallowed as
  | .listLit es => specAnyDisallowed es
  | .tupleLit es => specAnyDisallowed es
  | .ifExp a b c =>
    specContainsDisallowed a || specContainsDisallowed b || specContainsDisallowed c

/-- Any expression of the list containing a disallowed construct. -/
def specAnyDisallowed : List Expr → Bool
  | [] => false
  | e :: es => specContainsDisallowed e || specAnyDisallowed es

/-- Any comparand of the chain containing a disallowed construct. -/
def specAnyDisallowedPairs : List (CmpOp × Expr) → Bool
  | [] => false
  | (_, e) :: ps => specContainsDisallowed e || specAnyDisallowedPairs ps

end

/-- Rename semantics as the specification words it: keys absent from the
mapping pass through, then each mapping entry — in **mapping** iteration
order — rewrites its source key, later entries overwriting on a target
collision.  Stated from the spec's words for comparison with
`RenameTransform.apply`. -/
def renameSpecMappingOrder (m : List (String × String)) (r : Record) : Record :=
  let passthrough := r.filter (fun kv => (lookupStr m kv.1).isNone)
  m.foldl
    (fun acc st =>
      match recordGet r st.1 with
      | some v => recordSet acc st.2 v
      | Option.none => acc)
    passthrough

/-- The batch sizes the specification predicts for `n` valid records at
batch size `b`: `n / b` full batches followed by the non-empty remainder,
if any. -/
def chunkSizes (b n : Nat) : List Nat :=
  List.replicate (n / b) b ++ (if n % b = 0 then [] else [n % b])

/-- One field error reported by the Validator
(`{field, message, type}`). -/
structure FieldError where
  field : String
  message : String
  kind : String

/-- `PipelineMetrics`: the counters and error log owned by a `Pipeline`
object (the wall-clock start/stop timestamps are not representable here
and carry no counted state). -/
structure PipelineMetrics where
  records_extracted : Nat
  records_transformed : Nat
  records_valid : Nat
  records_invalid : Nat
  records_loaded : Nat
  errors : List (Record × List FieldError)

/-- The dataclass defaults: all counters zero, empty error log. -/
def zeroMetrics : PipelineMetrics :=
  ⟨0, 0, 0, 0, 0, []⟩

/-- Componentwise sum of two metric aggregates (error logs append). -/
def PipelineMetrics.add (a b : PipelineMetrics) : PipelineMetrics :=
  ⟨a.records_extracted + b.records_extracted,
   a.records_transformed + b.records_transformed,
   a.records_valid + b.records_valid,
   a.records_invalid + b.records_invalid,
   a.records_loaded + b.records_loaded,
   a.errors ++ b.errors⟩

/-- The counter part of `PipelineMetrics.to_dict` (the fixed-key run
result; `duration_seconds` is wall-clock and omitted from the model). -/
structure MetricsDict where
  records_extracted : Nat
  records_transformed : Nat
  records_valid : Nat
  records_invalid : Nat
  records_loaded : Nat
  error_count : Nat

/-- `PipelineMetrics.to_dict`. -/
def PipelineMetrics.toDict (m : PipelineMetrics) : MetricsDict :=
  ⟨m.records_extracted, m.records_transformed, m.records_valid,
   m.records_invalid, m.records_loaded, m.errors.length⟩

/-- The collaborators `Pipeline.run` builds from its config before the
record loop: the transform chain, the optional validator, the loader's
`load` capability and the configured batch size.  Raising host code is
modelled by `Except` results; the error type is abstract. -/
structure RunEnv (ε : Type) where
  transforms : List (Record → Except ε (Option Record))
  validator : Option (Record → Except ε (List FieldError))
  load : List Record → Except ε Nat
  batchSize : Nat

/-- Executor loop state: the metrics aggregate, the current batch of
valid records, and the log of `load` invocations (each entry the batch
passed to one call). -/
structure LoopState where
  metrics : PipelineMetrics
  batch : List Record
  loadCalls : List (List Record)

/-- The inner `for transform in transforms` loop: short-circuits (break)
once the running value is `None`, otherwise applies the next stage. -/
def applyChain (ε : Type) :
    List (Record → Except ε (Option Record)) → Option Record →
    Except ε (Option Record)
  | [], cur => .ok cur
  | t :: ts, cur =>
    match cur with
    | Option.none => .ok Option.none
    | some r => do applyChain ε ts (← t r)

/-- The tail of the per-record body once a record is valid: increment
`records_valid`, append to the batch, and flush to the Loader when the
batch has reached the configured size (the `load` call is logged whether
it returns or raises; `records_loaded` grows by the returned count). -/
def validStep (env : RunEnv ε) (current : Record) (st : LoopState) :
    LoopState × Option ε :=
  let st :=
    { st with metrics := { st.metrics with records_valid := st.metrics.records_valid + 1 },
              batch := st.batch ++ [current] }
  if env.batchSize ≤ st.batch.length then
    match env.load st.batch with
    | .ok n =>
      let m := { st.metrics with records_loaded := st.metrics.records_loaded + n }
      ({ st with metrics := m, batch := [],
                 loadCalls := st.loadCalls ++ [st.batch] }, Option.none)
    | .error e => ({ st with loadCalls := st.loadCalls ++ [st.batch] }, some e)
  else (st, Option.none)

/-- The `for record in extractor.extract()` loop of `Pipeline.run`.  A
stream element `.error e` is the extractor raising at that pull; any
raising stage/validator/loader aborts the loop with that error. -/
def runLoop (env : RunEnv ε) :
    List (Except ε Record) → LoopState → LoopState × Option ε
  | [], st => (st, Option.none)
  | item :: rest, st =>
    match item with
    | .error e => (st, some e)
    | .ok record =>
      let st :=
        { st with metrics :=
            { st.metrics with records_extracted := st.metrics.records_extracted + 1 } }
      match applyChain ε env.transforms (some record) with
      | .error e => (st, some e)
      | .ok Option.none => runLoop env rest st
      | .ok (some current) =>
        let st :=
          { st with metrics :=
              { st.metrics with records_transformed := st.metrics.records_transformed + 1 } }
        match env.validator with
        | some validate =>
          match validate current with
          | .error e => (st, some e)
          | .ok (err0 :: errs) =>
            let st :=
              { st with metrics :=
                  { st.metrics with
                      records_invalid := st.metrics.records_invalid + 1,
                      errors := st.metrics.errors ++ [(current, err0 :: errs)] } }
            runLoop env rest st
          | .ok [] =>
            match validStep env current st with
            | (st', Option.none) => runLoop env rest st'
            | (st', some e) => (st', some e)
        | Option.none =>
          match validStep env current st with
          | (st', Option.none) => runLoop env rest st'
          | (st', some e) => (st', some e)

/-- Outcome of one `Pipeline.run` invocation: `outcome = none` is normal
completion (the metrics dict is returned to the caller), `some e` is the
run aborting with the propagated exception; `loadCalls` and `closeCalls`
record the Loader interactions. -/
structure RunResult (ε : Type) where
  outcome : Option ε
  metrics : PipelineMetrics
  loadCalls : List (List Record)
  closeCalls : Nat

/-- `Pipeline.run` around the loop: the `try` body (loop, then the final
flush of a non-empty remainder batch) followed by the `finally` block,
which closes the Loader on every path — normal or aborting — exactly
once. -/
def pipelineRun (env : RunEnv ε) (m0 : PipelineMetrics)
    (stream : List (Except ε Record)) : RunResult ε :=
  let looped := runLoop env stream ⟨m0, [], []⟩
  let finished :=
    match looped with
    | (st, some e) => (st, some e)
    | (st, Option.none) =>
      if st.batch.isEmpty then (st, Option.none)
      else
        match env.load st.batch with
        | .ok n =>
          let m := { st.metrics with records_loaded := st.metrics.records_loaded + n }
          ({ st with metrics := m, batch := [],
                     loadCalls := st.loadCalls ++ [st.batch] }, Option.none)
        | .error e => ({ st with loadCalls := st.loadCalls ++ [st.batch] }, some e)
  { outcome := finished.2
    metrics := finished.1.metrics
    loadCalls := finished.1.loadCalls
    closeCalls := 1 }

/-- A `Pipeline` object: the collaborators built from its config and the
single metrics aggregate created in `__init__` — `run` touches but never
re-creates it. -/
structure PipelineObj (ε : Type) where
  env : RunEnv ε
  metrics : PipelineMetrics

/-- `Pipeline.run` as a method: executes against the object's current
metrics aggregate and leaves the updated aggregate on the object. -/
def PipelineObj.run (p : PipelineObj ε) (stream : List (Except ε Record)) :
    RunResult ε × PipelineObj ε :=
  let res := pipelineRun p.env p.metrics stream
  (res, { p with metrics := res.metrics })

/-- The benign pipeline environment of the batching property: no
transforms, no validator, and a loader that accepts every batch and
reports its length. -/
def echoEnv (ε : Type) (b : Nat) : RunEnv ε :=
  { transforms := [], validator := Option.none,
    load := fun batch => .ok batch.length, batchSize := b }

/-! ## Helper lemmas -/

mutual

/-- Python `==` holds exactly when the canonical forms coincide. -/
theorem valueEq_iff_canon : (a b : Value) → (valueEq a b = true ↔ canon a = canon b)
  | .none, b => by cases b <;> simp [valueEq, canon, Value.asNum?]
  | .bool x, b => by cases b <;> cases x <;> simp [valueEq, canon, Value.asNum?]
  | .int n, b => by cases b <;> simp [valueEq, canon, Value.asNum?]
  | .str s, b => by cases b <;> simp [valueEq, canon, Value.asNum?]
  | .builtin s, b => by cases b <;> simp [valueEq, canon, Value.asNum?]
  | .pyclass s, b => by cases b <;> simp [valueEq, canon, Value.asNum?]
  | .list as', .list bs' => by
    simpa [valueEq, canon] using valueListEq_iff_canonList as' bs'
  | .list as', .none => by simp [valueEq, canon, Value.asNum?]
  | .list as', .bool y => by simp [valueEq, canon, Value.asNum?]
  | .list as', .int m => by simp [valueEq, canon, Value.asNum?]
  | .list as', .str t => by simp [valueEq, canon, Value.asNum?]
  | .list as', .builtin t => by simp [valueEq, canon, Value.asNum?]
  | .list as', .pyclass t => by simp [valueEq, canon, Value.asNum?]
  | .list as', .tuple bs' => by simp [valueEq, canon, Value.asNum?]
  | .tuple as', .tuple bs' => by
    simpa [valueEq, canon] using valueListEq_iff_canonList as' bs'
  | .tuple as', .none => by simp [valueEq, canon, Value.asNum?]
  | .tuple as', .bool y => by simp [valueEq, canon, Value.asNum?]
  | .tuple as', .int m => by simp [valueEq, canon, Value.asNum?]
  | .tuple as', .str t => by simp [valueEq, canon, Value.asNum?]
  | .tuple as', .builtin t => by simp [valueEq, canon, Value.asNum?]
  | .tuple as', .pyclass t => by simp [valueEq, canon, Value.asNum?]
  | .tuple as', .list bs' => by simp [valueEq, canon, Value.asNum?]

/-- Sequences are elementwise `==` exactly when their canonical forms
coincide. -/
theorem valueListEq_iff_canonList : (as' bs' : List Value) →
    (valueListEq as' bs' = true ↔ canonList as' = canonList bs')
  | [], [] => by simp [valueListEq, canonList]
  | [], _ :: _ => by simp [valueListEq, canonList]
  | _ :: _, [] => by simp [valueListEq, canonList]
  | a :: as', b :: bs' => by
    simp only [valueListEq, canonList, Bool.and_eq_true, List.cons.injEq]
    exact and_congr (valueEq_iff_canon a b) (valueListEq_iff_canonList as' bs')

end

/-- Key-tuple equality is transitive (needed because the seen-set stores
one representative per `==`-class). -/
theorem valueListEq_trans {a b c : List Value}
    (h₁ : valueListEq a b = true) (h₂ : valueListEq b c = true) :
    valueListEq a c = true :=
  (valueListEq_iff_canonList a c).mpr
    (((valueListEq_iff_canonList a b).mp h₁).trans
      ((valueListEq_iff_canonList b c).mp h₂))


/-- Reduction of the `Except` monad bind on a success value. -/
theorem okBind {α β ε : Type} (a : α) (f : α → Except ε β) :
    (Except.ok a >>= f) = f a := rfl

/-! ## Claims -/

/-- C1: the claim says every Filter condition and Derive right-hand
expression is evaluated through the capability-whitelisted Sandbox, so
that a dunder attribute access is rejected with a security error and
never evaluated.  The code routes both stages through the host `eval`
instead: on the condition `(1).__class__` the Sandbox raises the security
error, but `FilterTransform.apply` evaluates it to the class object
`int` — truthy — and keeps the record, and `DeriveTransform.apply`
stores the evaluated class object in the target field. -/
theorem filter_derive_bypass_sandbox :
    evalExpr (.attribute (.const (.int 1)) "__class__") []
      = .error (.securityViolation
          "Access to dunder attribute __class__ is not allowed") ∧
    rawEval (.attribute (.const (.int 1)) "__class__") []
      = .ok (.pyclass "int") ∧
    FilterTransform.applyAst (.attribute (.const (.int 1)) "__class__") []
      = .ok (some []) ∧
    DeriveTransform.applyWith ⟨"x", "(1).__class__"⟩
      (fun _ env => rawEval (.attribute (.const (.int 1)) "__class__") env) []
      = .ok [("x", .pyclass "int")] :=
  ⟨rfl, rfl, rfl, rfl⟩

/-- C2 counterexample: the claim quantifies over every expression that
*contains* a disallowed construct, but the sandbox's `and`/`or`
short-circuiting can return a value without ever reaching the construct:
`False and x.__class__` contains a dunder attribute access yet evaluates
to `False` and raises no security error. -/
theorem sandbox_contains_disallowed_counterexample :
    specContainsDisallowed
        (.boolOp .andOp [.const (.bool false), .attribute (.name "x") "__class__"])
      = true ∧
    evalExpr
        (.boolOp .andOp [.const (.bool false), .attribute (.name "x") "__class__"]) []
      = .ok (.bool false) ∧
    ∀ msg,
      evalExpr
          (.boolOp .andOp [.const (.bool false), .attribute (.name "x") "__class__"]) []
        ≠ .error (.securityViolation msg) := by
  refine ⟨rfl, rfl, ?_⟩
  intro msg h
  have hok :
      evalExpr
          (.boolOp .andOp [.const (.bool false), .attribute (.name "x") "__class__"]) []
        = .ok (.bool false) := rfl
  exact Except.noConfusion (hok.symm.trans h)

/-- C2 amended: whenever the evaluator *reaches* a disallowed construct —
an attribute access or method call whose name begins with the
double-underscore sentinel, or a free-function call whose name is not in
the builtin table — it raises the security error before evaluating the
construct's receiver or arguments (the result is the same for every
receiver expression and argument list, including ones that would
themselves fail); an expression containing such a construct only in a
short-circuited branch may still evaluate to a value. -/
theorem sandbox_rejects_before_subterms (recv : Expr) (attr fname : String)
    (args : List Expr) (env : Record)
    (hAttr : isDunderName attr = true)
    (hf : lookupVal SAFE_BUILTINS fname = Option.none) :
    evalExpr (.attribute recv attr) env
      = .error (.securityViolation
          ("Access to dunder attribute " ++ attr ++ " is not allowed")) ∧
    evalExpr (.call (.attribute recv attr) args) env
      = .error (.securityViolation
          ("Call to dunder method " ++ attr ++ " is not allowed")) ∧
    evalExpr (.call (.name fname) args) env
      = .error (.securityViolation
          ("Call to " ++ fname ++ " is not allowed")) := by
  refine ⟨?_, ?_, ?_⟩
  · simp only [evalExpr, hAttr, if_true]
  · simp only [evalExpr, hAttr, if_true]
  · simp only [evalExpr, hf]
    split <;> rfl

/-- C2 witness: the amendment applied at the dunder attribute
`__class__`, a dunder method call on an unresolvable receiver, and the
whitelisted-table miss `shutil`, with unevaluated ill-formed arguments. -/
theorem sandbox_rejects_before_subterms_witness :
    evalExpr (.attribute (.name "x") "__class__") []
      = .error (.securityViolation
          ("Access to dunder attribute " ++ "__class__" ++ " is not allowed")) ∧
    evalExpr (.call (.attribute (.name "x") "__class__") [.name "y"]) []
      = .error (.securityViolation
          ("Call to dunder method " ++ "__class__" ++ " is not allowed")) ∧
    evalExpr (.call (.name "shutil") [.name "y"]) []
      = .error (.securityViolation
          ("Call to " ++ "shutil" ++ " is not allowed")) :=
  sandbox_rejects_before_subterms (.name "x") "__class__" "shutil" [.name "y"] []
    rfl rfl

/-- C8: chained comparisons evaluate pairwise left-to-right, each
comparand reused as the next left operand; `1 < 2 < 3` is true and
`1 < 3 < 2` is false; at the first failing pair the chain yields `False`
for every continuation of the chain (nothing past the failing pair is
evaluated), and a passing pair continues the chain with the right
comparand as the new left operand. -/
theorem compare_chain_claim :
    (evalExpr
        (.compare (.const (.int 1)) [(.lt, .const (.int 2)), (.lt, .const (.int 3))]) []
      = .ok (.bool true)) ∧
    (evalExpr
        (.compare (.const (.int 1)) [(.lt, .const (.int 3)), (.lt, .const (.int 2))]) []
      = .ok (.bool false)) ∧
    (∀ (env : Record) (l e1 : Expr) (op : CmpOp) (v w : Value)
        (rest : List (CmpOp × Expr)),
      evalExpr l env = .ok v → evalExpr e1 env = .ok w →
      applyCmp op v w = .ok false →
      evalExpr (.compare l ((op, e1) :: rest)) env = .ok (.bool false)) ∧
    (∀ (env : Record) (l e1 : Expr) (op : CmpOp) (v w : Value)
        (rest : List (CmpOp × Expr)),
      evalExpr l env = .ok v → evalExpr e1 env = .ok w →
      applyCmp op v w = .ok true →
      evalExpr (.compare l ((op, e1) :: rest)) env = evalCompareChain w rest env) := by
  refine ⟨rfl, rfl, ?_, ?_⟩
  · intro env l e1 op v w rest hl he hcmp
    simp only [evalExpr, hl, okBind, evalCompareChain, he, hcmp]
    rfl
  · intro env l e1 op v w rest hl he hcmp
    simp only [evalExpr, hl, okBind, evalCompareChain, he, hcmp]
    rfl

/-- C8 witness: the short-circuit clause applied at `5 < 3 < missing`,
whose unbound final comparand is never evaluated. -/
theorem compare_chain_claim_witness :
    evalExpr
        (.compare (.const (.int 5)) [(.lt, .const (.int 3)), (.lt, .name "missing")]) []
      = .ok (.bool false) :=
  compare_chain_claim.2.2.1 [] (.const (.int 5)) (.const (.int 3)) .lt
    (.int 5) (.int 3) [(.lt, .name "missing")] rfl rfl rfl


/-- Lookup on a cons cell. -/
theorem recordGet_cons (a : String × Value) (rest : Record) (k : String) :
    recordGet (a :: rest) k = if a.1 == k then some a.2 else recordGet rest k := by
  by_cases h : a.1 == k <;> simp [recordGet, List.find?, h]

/-- Assignment makes the key read back the assigned value. -/
theorem recordGet_recordSet_self (r : Record) (k : String) (v : Value) :
    recordGet (recordSet r k v) k = some v := by
  induction r with
  | nil => simp [recordSet, recordGet, List.find?]
  | cons kv rest ih =>
    by_cases h : kv.1 == k
    · simp [recordSet, h, recordGet_cons]
    · simp [recordSet, h, recordGet_cons, ih]

/-- Assignment leaves every other key unchanged. -/
theorem recordGet_recordSet_other (r : Record) (k k' : String) (v : Value)
    (h : k' ≠ k) :
    recordGet (recordSet r k v) k' = recordGet r k' := by
  have hbeq : (k == k') = false := by
    simp [beq_iff_eq]
    exact fun he => h he.symm
  induction r with
  | nil => simp [recordSet, recordGet_cons, hbeq, recordGet]
  | cons kv rest ih =>
    by_cases hk : kv.1 == k
    · have : kv.1 = k := by simpa [beq_iff_eq] using hk
      simp [recordSet, hk, recordGet_cons, hbeq, this]
    · simp [recordSet, hk, recordGet_cons, ih]

/-- Combined lookup-after-assignment law. -/
theorem recordGet_recordSet (acc : Record) (k t : String) (v : Value) :
    recordGet (recordSet acc k v) t = if k == t then some v else recordGet acc t := by
  by_cases h : k = t
  · subst h
    simp [recordGet_recordSet_self]
  · have hbeq : (k == t) = false := by simp [beq_iff_eq, h]
    rw [hbeq, if_neg (by simp)]
    exact recordGet_recordSet_other acc k t v (fun he => h he.symm)

/-- `splitFirstAux` splits at the first occurrence of the separator. -/
theorem splitFirstAux_first (b : List Char) :
    ∀ (a : List Char), '=' ∉ a → splitFirstAux '=' (a ++ '=' :: b) = some (a, b) := by
  intro a
  induction a with
  | nil => intro _; simp [splitFirstAux]
  | cons c a' ih =>
    intro h
    have hc : (c == '=') = false := by
      simp [beq_iff_eq]
      intro he
      exact h (he ▸ List.mem_cons_self c a')
    have ha : '=' ∉ a' := fun hm => h (List.mem_cons_of_mem c hm)
    simp [splitFirstAux, hc, ih ha]

/-- A one-character needle occurs as an infix exactly where it occurs as
an element. -/
theorem listInfixOf_singleton_of_mem {c : Char} {l : List Char} (h : c ∈ l) :
    listInfixOf [c] l = true := by
  induction l with
  | nil => cases h
  | cons d rest ih =>
    rcases List.mem_cons.mp h with h1 | h2
    · simp [listInfixOf, listPrefixOf, h1]
    · simp [listInfixOf, listPrefixOf, ih h2]

/-- The rename fold resolves each output name to the value of the last
record entry whose renamed key matches, falling back to the accumulator. -/
theorem rename_foldl_get (m : List (String × String)) :
    ∀ (r : Record) (acc : Record) (t : String),
      recordGet (r.foldl (fun acc kv => recordSet acc (mappingGetD m kv.1) kv.2) acc) t
        = (match r.reverse.find? (fun kv => mappingGetD m kv.1 == t) with
           | some kv => some kv.2
           | Option.none => recordGet acc t) := by
  intro r
  induction r with
  | nil => intro acc t; simp
  | cons kv rest ih =>
    intro acc t
    have happ :
        ((kv :: rest).reverse).find? (fun kv => mappingGetD m kv.1 == t)
          = ((rest.reverse).find? (fun kv => mappingGetD m kv.1 == t)).or
              ([kv].find? (fun kv => mappingGetD m kv.1 == t)) := by
      simp [List.find?_append]
    rw [List.foldl_cons, ih, happ]
    cases hfind : (rest.reverse).find? (fun kv => mappingGetD m kv.1 == t) with
    | some kv' => simp [Option.or]
    | none =>
      simp only [Option.or]
      by_cases hp : mappingGetD m kv.1 == t
      · simp [List.find?, hp, recordGet_recordSet]
      · simp [List.find?, hp, recordGet_recordSet]

/-- C7: Derive construction splits the configured string at the first
`=` (stripping both parts) and fails with `ValueError` exactly when the
string contains no `=`; at apply time the stage returns the record copy
with the target field assigned the evaluation result, every other field
reading back unchanged and the target reading back the result (the input
record itself is a value the stage never mutates — `apply` builds a
fresh copy). -/
theorem derive_claim :
    (∀ s : String, strContains s "=" = false →
      DeriveTransform.init s
        = .error (.valueError ("Derive expression must contain '=': " ++ s))) ∧
    (∀ (a b : List Char), '=' ∉ a →
      DeriveTransform.init (String.mk (a ++ '=' :: b))
        = .ok ⟨pyStrip (String.mk a), pyStrip (String.mk b)⟩) ∧
    (∀ (t : DeriveTransform) (evalFn : String → Record → Except Err Value)
        (r : Record) (v : Value),
      evalFn t.expr r = .ok v →
      t.applyWith evalFn r = .ok (recordSet r t.target v)) ∧
    (∀ (r : Record) (k : String) (v : Value),
      recordGet (recordSet r k v) k = some v) ∧
    (∀ (r : Record) (k k' : String) (v : Value), k' ≠ k →
      recordGet (recordSet r k v) k' = recordGet r k') := by
  refine ⟨?_, ?_, ?_, ?_, ?_⟩
  · intro s h
    simp [DeriveTransform.init, h]
  · intro a b h
    have hm : '=' ∈ a ++ '=' :: b := List.mem_append_right a (List.mem_cons_self _ _)
    have hc : strContains (String.mk (a ++ '=' :: b)) "=" = true := by
      simpa [strContains] using listInfixOf_singleton_of_mem hm
    simp [DeriveTransform.init, hc, pySplitOnce, splitFirstAux_first b a h]
  · intro t evalFn r v h
    simp [DeriveTransform.applyWith, h]
  · intro r k v
    exact recordGet_recordSet_self r k v
  · intro r k k' v h
    exact recordGet_recordSet_other r k k' v h

/-- C7 witness: construction fails on `no_equals_sign`, splits
`full_name = first` at its `=`, and applying a stage whose expression
evaluates to `7` assigns the target and leaves the other field intact. -/
theorem derive_claim_witness :
    DeriveTransform.init "no_equals_sign"
      = .error (.valueError ("Derive expression must contain '=': " ++ "no_equals_sign")) ∧
    DeriveTransform.init "full_name = first" = .ok ⟨"full_name", "first"⟩ ∧
    DeriveTransform.applyWith ⟨"x", "e"⟩ (fun _ _ => .ok (.int 7)) [("a", .int 1)]
      = .ok [("a", .int 1), ("x", .int 7)] ∧
    recordGet (recordSet [("a", .int 1)] "x" (.int 7)) "a" = some (.int 1) :=
  ⟨derive_claim.1 "no_equals_sign" rfl,
   (derive_claim.2.1 "full_name ".data " first".data (by decide)).trans rfl,
   (derive_claim.2.2.1 ⟨"x", "e"⟩ (fun _ _ => .ok (.int 7)) [("a", .int 1)]
      (.int 7) rfl).trans rfl,
   derive_claim.2.2.2.2 [("a", .int 1)] "x" "a" (.int 7) (by decide)⟩

/-- C4 counterexample: a Cast stage naming the unknown type tag
`decimal` constructs successfully — `__init__` merely stores the table —
and the `Unknown cast type` error is first raised while applying the
stage to a record carrying that column, contradicting the claim that
such configuration errors abort construction before any record is
read. -/
theorem cast_unknown_tag_counterexample :
    CastTransform.init [("a", "decimal")] = ⟨[("a", "decimal")]⟩ ∧
    CastTransform.apply (CastTransform.init [("a", "decimal")]) [("a", .int 1)]
      = .error (.valueError "Unknown cast type: decimal") :=
  ⟨rfl, rfl⟩

/-- C4 amended: stage construction performs no validation of expressions
or type tags — Filter and Cast construction are total field assignments,
and only Derive's missing-`=` check can fail at construction (succeeding
whenever an `=` is present) — so a Cast stage with an unknown type tag is
built without error and the `Unknown cast type` `ValueError` first
surfaces during per-record apply, on the first record with that column
present and non-null. -/
theorem stage_construction_defers_validation :
    (∀ cond : String, FilterTransform.init cond = ⟨cond⟩) ∧
    (∀ cols : List (String × String), CastTransform.init cols = ⟨cols⟩) ∧
    (∀ s : String, strContains s "=" = true →
      ∃ t : DeriveTransform, DeriveTransform.init s = .ok t) ∧
    CastTransform.apply (CastTransform.init [("a", "decimal")]) [("a", .int 1)]
      = .error (.valueError "Unknown cast type: decimal") := by
  refine ⟨fun _ => rfl, fun _ => rfl, ?_, rfl⟩
  intro s h
  simp only [DeriveTransform.init, h, if_true]
  exact ⟨_, rfl⟩

/-- C4 witness: the Derive-construction clause applied at a string that
does contain `=`. -/
theorem stage_construction_defers_validation_witness :
    strContains "x = 1" "=" = true ∧
    ∃ t : DeriveTransform, DeriveTransform.init "x = 1" = .ok t :=
  ⟨rfl, stage_construction_defers_validation.2.2.1 "x = 1" rfl⟩

/-- C9 counterexample: with mapping `{a ↦ t, b ↦ t}` (mapping order `a`
then `b`) and record `{b: 1, a: 2}`, the code's rename — which iterates
the **record** — keeps the value of `a` (the later record entry), while
the claimed mapping-iteration-order resolution would keep the value of
`b` (the later mapping entry). -/
theorem rename_mapping_order_counterexample :
    RenameTransform.apply ⟨[("a", "t"), ("b", "t")]⟩ [("b", .int 1), ("a", .int 2)]
      = [("t", .int 2)] ∧
    renameSpecMappingOrder [("a", "t"), ("b", "t")] [("b", .int 1), ("a", .int 2)]
      = [("t", .int 1)] ∧
    recordGet
        (RenameTransform.apply ⟨[("a", "t"), ("b", "t")]⟩
          [("b", .int 1), ("a", .int 2)]) "t"
      ≠ recordGet
          (renameSpecMappingOrder [("a", "t"), ("b", "t")]
            [("b", .int 1), ("a", .int 2)]) "t" := by
  refine ⟨rfl, rfl, ?_⟩
  intro h
  have h' : some (Value.int 2) = some (Value.int 1) := h
  simp only [Option.some.injEq, Value.int.injEq] at h'
  exact absurd h' (by decide)

/-- C9 amended: rename builds a new Record in which each key `k` is
replaced by `mapping.get(k, k)`; the value readable at an output name `t`
is that of the **last record entry in record iteration order** whose
renamed key is `t` (so keys absent from the mapping pass through
unchanged unless a later entry renames onto them, and two source keys
mapping to the same target resolve last-applied-wins in record order). -/
theorem rename_record_order_last_wins (m : List (String × String)) (r : Record)
    (t : String) :
    recordGet (RenameTransform.apply ⟨m⟩ r) t
      = (match r.reverse.find? (fun kv => mappingGetD m kv.1 == t) with
         | some kv => some kv.2
         | Option.none => Option.none) := by
  have h := rename_foldl_get m r [] t
  simpa [RenameTransform.apply, recordGet, List.find?] using h


/-- Membership in a seen-set extended with one key tuple. -/
theorem seenContains_cons (k0 k : List Value) (seen : List (List Value)) :
    seenContains (k0 :: seen) k = (valueListEq k0 k || seenContains seen k) := by
  simp [seenContains]

/-- A seen-set containing a key contains every key equal to it. -/
theorem seenContains_absorb {seen : List (List Value)} {k0 k : List Value}
    (hseen : seenContains seen k0 = true) (he : valueListEq k0 k = true) :
    seenContains seen k = true := by
  rcases List.any_eq_true.mp hseen with ⟨s, hs, hsk⟩
  exact List.any_eq_true.mpr ⟨s, hs, valueListEq_trans hsk he⟩

/-- Adding a disjunct already implied by the first is the identity. -/
theorem bool_or_absorb (a e b : Bool) (h : e = true → a = true) :
    (a || b) = (a || (e || b)) := by
  cases e
  · simp
  · simp [h rfl]

/-- Reassociation of a three-way disjunction. -/
theorem bool_or_shuffle (e a b : Bool) : ((e || a) || b) = (a || (e || b)) := by
  cases e <;> cases a <;> cases b <;> rfl

/-- Characterization of the dedup stage over a record list from an
arbitrary seen-set: the `i`-th output is `None` exactly when the `i`-th
key tuple is already in the seen-set or equals the key tuple of an
earlier record, and the record itself otherwise. -/
theorem dedupRun_get? (key : List String) :
    ∀ (rs : List Record) (seen : List (List Value)) (i : Nat) (h : i < rs.length),
      (dedupRun ⟨key, seen⟩ rs).1.get? i =
        some (if (seenContains seen (keyTupleOf key (rs.get ⟨i, h⟩))
                  || (rs.take i).any (fun r' =>
                       valueListEq (keyTupleOf key r') (keyTupleOf key (rs.get ⟨i, h⟩))))
              then Option.none else some (rs.get ⟨i, h⟩)) := by
  intro rs
  induction rs with
  | nil => intro seen i h; cases h
  | cons r rest ih =>
    intro seen i h
    by_cases hseen : seenContains seen (keyTupleOf key r) = true
    · cases i with
      | zero =>
        simp [dedupRun, DeduplicateTransform.apply, hseen]
      | succ j =>
        have hj : j < rest.length := Nat.lt_of_succ_lt_succ h
        have hstep :
            (dedupRun ⟨key, seen⟩ (r :: rest)).1.get? (j + 1)
              = (dedupRun ⟨key, seen⟩ rest).1.get? j := by
          simp [dedupRun, DeduplicateTransform.apply, hseen]
        have hget : (r :: rest).get ⟨j + 1, h⟩ = rest.get ⟨j, hj⟩ := rfl
        have hcond :
            (seenContains seen (keyTupleOf key (rest.get ⟨j, hj⟩))
              || (rest.take j).any (fun r' =>
                   valueListEq (keyTupleOf key r') (keyTupleOf key (rest.get ⟨j, hj⟩))))
            = (seenContains seen (keyTupleOf key (rest.get ⟨j, hj⟩))
              || (valueListEq (keyTupleOf key r) (keyTupleOf key (rest.get ⟨j, hj⟩))
                  || (rest.take j).any (fun r' =>
                       valueListEq (keyTupleOf key r') (keyTupleOf key (rest.get ⟨j, hj⟩))))) :=
          bool_or_absorb _ _ _ (fun he => seenContains_absorb hseen he)
        rw [hstep, ih seen j hj, hget, List.take_succ_cons, List.any_cons, hcond]
    · have hseen' : seenContains seen (keyTupleOf key r) = false :=
        Bool.eq_false_iff.mpr hseen
      cases i with
      | zero =>
        simp [dedupRun, DeduplicateTransform.apply, hseen']
      | succ j =>
        have hj : j < rest.length := Nat.lt_of_succ_lt_succ h
        have hstep :
            (dedupRun ⟨key, seen⟩ (r :: rest)).1.get? (j + 1)
              = (dedupRun ⟨key, keyTupleOf key r :: seen⟩ rest).1.get? j := by
          simp [dedupRun, DeduplicateTransform.apply, hseen']
        have hget : (r :: rest).get ⟨j + 1, h⟩ = rest.get ⟨j, hj⟩ := rfl
        rw [hstep, ih _ j hj, hget, seenContains_cons, List.take_succ_cons,
          List.any_cons, bool_or_shuffle]

/-- The dedup stage emits one output per input. -/
theorem dedupRun_length :
    ∀ (rs : List Record) (t : DeduplicateTransform),
      (dedupRun t rs).1.length = rs.length
  | [], _ => rfl
  | r :: rs, t => by simp [dedupRun, dedupRun_length rs]

/-- C6: a fresh Deduplicate stage, applied to a record list in order,
returns unchanged exactly the first record carrying each distinct key
tuple (computed from the key fields, a missing field contributing the
null sentinel) and `None` for every later record whose key tuple equals
an earlier one, one output per input in input order; `reset()` clears the
seen-set, restoring the freshly-constructed stage. -/
theorem dedup_claim :
    (∀ (key : List String) (rs : List Record) (i : Nat) (h : i < rs.length),
      (dedupRun (DeduplicateTransform.init key) rs).1.get? i
        = some (if (rs.take i).any (fun r' =>
                    valueListEq (keyTupleOf key r') (keyTupleOf key (rs.get ⟨i, h⟩)))
                then Option.none else some (rs.get ⟨i, h⟩))) ∧
    (∀ (t : DeduplicateTransform) (rs : List Record),
      (dedupRun t rs).1.length = rs.length) ∧
    (∀ t : DeduplicateTransform, t.reset = DeduplicateTransform.init t.key) := by
  refine ⟨?_, fun t rs => dedupRun_length rs t, fun t => rfl⟩
  intro key rs i h
  have hmain := dedupRun_get? key rs [] i h
  simpa [DeduplicateTransform.init, seenContains] using hmain

/-- C6 witness: with key `["email"]` and records `a, a, b`, the second
record is dropped and the third survives. -/
theorem dedup_claim_witness :
    ((dedupRun (DeduplicateTransform.init ["email"])
        [[("email", .str "a")], [("email", .str "a")], [("email", .str "b")]]).1.get? 1
      = some Option.none) ∧
    ((dedupRun (DeduplicateTransform.init ["email"])
        [[("email", .str "a")], [("email", .str "a")], [("email", .str "b")]]).1.get? 2
      = some (some [("email", .str "b")])) :=
  ⟨(dedup_claim.1 ["email"]
      [[("email", .str "a")], [("email", .str "a")], [("email", .str "b")]] 1
      (by decide)).trans rfl,
   (dedup_claim.1 ["email"]
      [[("email", .str "a")], [("email", .str "a")], [("email", .str "b")]] 2
      (by decide)).trans rfl⟩


/-- Loop invariant for the batching property: starting from a batch
shorter than the batch size, an all-valid stream under `echoEnv` finishes
without error; the new load calls are exactly the full batches of size
`b`; the flushed records followed by the remainder batch are the carried
batch followed by the stream, in order; and the remainder has length
`(carried + n) mod b`. -/
theorem runLoop_echo (ε : Type) (b : Nat) (hb : 0 < b) :
    ∀ (vs : List Record) (st : LoopState), st.batch.length < b →
      (runLoop (echoEnv ε b) (vs.map .ok) st).2 = Option.none ∧
      ((runLoop (echoEnv ε b) (vs.map .ok) st).1.loadCalls.map List.length
        = st.loadCalls.map List.length
          ++ List.replicate ((st.batch.length + vs.length) / b) b) ∧
      ((runLoop (echoEnv ε b) (vs.map .ok) st).1.loadCalls.flatten
          ++ (runLoop (echoEnv ε b) (vs.map .ok) st).1.batch
        = st.loadCalls.flatten ++ st.batch ++ vs) ∧
      (runLoop (echoEnv ε b) (vs.map .ok) st).1.batch.length
        = (st.batch.length + vs.length) % b := by
  intro vs
  induction vs with
  | nil =>
    intro st hlt
    refine ⟨rfl, ?_, ?_, ?_⟩
    · simp [runLoop, Nat.div_eq_of_lt hlt]
    · simp [runLoop]
    · simp [runLoop, Nat.mod_eq_of_lt hlt]
  | cons r vs' ih =>
    intro st hlt
    by_cases hflush : b ≤ st.batch.length + 1
    · have hlen : st.batch.length + 1 = b := Nat.le_antisymm hlt hflush
      have hstep :
          runLoop (echoEnv ε b) ((r :: vs').map .ok) st
            = runLoop (echoEnv ε b) (vs'.map .ok)
                ⟨{ st.metrics with
                     records_extracted := st.metrics.records_extracted + 1,
                     records_transformed := st.metrics.records_transformed + 1,
                     records_valid := st.metrics.records_valid + 1,
                     records_loaded := st.metrics.records_loaded + (st.batch.length + 1) },
                  [], st.loadCalls ++ [st.batch ++ [r]]⟩ := by
        simp [runLoop, applyChain, validStep, echoEnv, hflush]
      have ihh := fun (m : PipelineMetrics) =>
        ih ⟨m, [], st.loadCalls ++ [st.batch ++ [r]]⟩ (by simpa using hb)
      rw [hstep]
      refine ⟨((ihh _).1), ?_, ?_, ?_⟩
      · rw [(ihh _).2.1]
        simp only [List.map_append, List.map_cons, List.map_nil,
          List.length_append, List.length_cons, List.length_nil, List.length_map]
        have h1 : st.batch.length + (vs'.length + 1) = vs'.length + b := by omega
        rw [List.append_assoc, h1, Nat.add_div_right _ hb]
        simp [List.replicate_succ, hlen]
      · rw [(ihh _).2.2.1]
        simp
      · rw [(ihh _).2.2.2]
        simp only [List.length_nil, List.length_cons, Nat.zero_add]
        have h1 : st.batch.length + (vs'.length + 1) = vs'.length + b := by omega
        rw [h1, Nat.add_mod_right]
    · have hlt' : st.batch.length + 1 < b := by omega
      have hstep :
          runLoop (echoEnv ε b) ((r :: vs').map .ok) st
            = runLoop (echoEnv ε b) (vs'.map .ok)
                ⟨{ st.metrics with
                     records_extracted := st.metrics.records_extracted + 1,
                     records_transformed := st.metrics.records_transformed + 1,
                     records_valid := st.metrics.records_valid + 1 },
                  st.batch ++ [r], st.loadCalls⟩ := by
        simp [runLoop, applyChain, validStep, echoEnv, hflush]
      have ihh := fun (m : PipelineMetrics) =>
        ih ⟨m, st.batch ++ [r], st.loadCalls⟩ (by simpa using hlt')
      rw [hstep]
      have harith : st.batch.length + 1 + vs'.length = st.batch.length + (vs'.length + 1) := by
        omega
      refine ⟨((ihh _).1), ?_, ?_, ?_⟩
      · rw [(ihh _).2.1]
        simp only [List.length_append, List.length_cons, List.length_nil,
          List.length_map, Nat.zero_add]
        rw [harith]
      · rw [(ihh _).2.2.1]
        simp
      · rw [(ihh _).2.2.2]
        simp only [List.length_append, List.length_cons, List.length_nil, Nat.zero_add]
        rw [harith]

/-- C5: with batch size `b ≥ 1` and a stream of `n` valid records (no
transforms or validator, loader accepting every batch), the run
completes, the Loader receives exactly `n / b` calls of size `b` followed
by one call of size `n mod b` when the remainder is non-empty — flushes
happen exactly when the accumulated records reach `b`, plus one final
remainder flush — and the flushed batches concatenate to the record
stream in order. -/
theorem batch_flush_claim (ε : Type) (b : Nat) (hb : 0 < b) (vs : List Record) :
    ((pipelineRun (echoEnv ε b) zeroMetrics (vs.map .ok)).loadCalls.map List.length
      = chunkSizes b vs.length) ∧
    (pipelineRun (echoEnv ε b) zeroMetrics (vs.map .ok)).loadCalls.flatten = vs ∧
    (pipelineRun (echoEnv ε b) zeroMetrics (vs.map .ok)).outcome = Option.none := by
  obtain ⟨i1, i2, i3, i4⟩ :=
    runLoop_echo ε b hb vs ⟨zeroMetrics, [], []⟩ (by simpa using hb)
  rcases hE : runLoop (echoEnv ε b) (vs.map .ok) ⟨zeroMetrics, [], []⟩ with ⟨lst, lerr⟩
  rw [hE] at i1 i2 i3 i4
  simp only [List.length_nil, Nat.zero_add, List.map_nil, List.flatten_nil,
    List.nil_append] at i2 i3 i4
  simp only at i1
  subst i1
  by_cases hempty : lst.batch.isEmpty
  · have hbe : lst.batch = [] := by simpa [List.isEmpty_iff] using hempty
    have hmod : vs.length % b = 0 := by
      rw [← i4, hbe]
      rfl
    refine ⟨?_, ?_, ?_⟩
    · simp [pipelineRun, hE, hempty, chunkSizes, hmod, i2]
    · simpa [pipelineRun, hE, hempty, hbe] using i3
    · simp [pipelineRun, hE, hempty]
  · have hmod : vs.length % b ≠ 0 := by
      intro h0
      rw [← i4] at h0
      exact hempty (by simpa [List.isEmpty_iff] using List.length_eq_zero.mp h0)
    have hload : (echoEnv ε b).load lst.batch = .ok lst.batch.length := rfl
    refine ⟨?_, ?_, ?_⟩
    · simp only [pipelineRun, hE]
      rw [if_neg hempty]
      simp [hload, chunkSizes, hmod, i2, i4]
    · simp only [pipelineRun, hE]
      rw [if_neg hempty]
      simpa [hload] using i3
    · simp only [pipelineRun, hE]
      rw [if_neg hempty]
      simp [hload]

/-- C5 witness: batch size 2 and 5 valid records produce exactly three
load calls of sizes 2, 2, 1, whose batches concatenate to the stream. -/
theorem batch_flush_claim_witness :
    ((pipelineRun (echoEnv Unit 2) zeroMetrics
        ([[("a", .int 1)], [("a", .int 2)], [("a", .int 3)], [("a", .int 4)],
          [("a", .int 5)]].map .ok)).loadCalls.map List.length = [2, 2, 1]) ∧
    (pipelineRun (echoEnv Unit 2) zeroMetrics
        ([[("a", .int 1)], [("a", .int 2)], [("a", .int 3)], [("a", .int 4)],
          [("a", .int 5)]].map .ok)).loadCalls.flatten
      = [[("a", .int 1)], [("a", .int 2)], [("a", .int 3)], [("a", .int 4)],
         [("a", .int 5)]] :=
  ⟨((batch_flush_claim Unit 2 (by decide)
      [[("a", .int 1)], [("a", .int 2)], [("a", .int 3)], [("a", .int 4)],
       [("a", .int 5)]]).1).trans rfl,
   (batch_flush_claim Unit 2 (by decide)
      [[("a", .int 1)], [("a", .int 2)], [("a", .int 3)], [("a", .int 4)],
       [("a", .int 5)]]).2.1⟩

/-- C3: for every pipeline run — over any extractor stream (including one
that raises mid-iteration), any transform chain, any validator, and any
loader behaviour (including a raising `load`) — the Loader's `close()` is
invoked exactly once, on normal completion and on every abort path alike:
the `try/finally` of `Pipeline.run` post-composes the close onto every
exit of the record loop and the final flush. -/
theorem loader_close_exactly_once (ε : Type) (env : RunEnv ε)
    (m0 : PipelineMetrics) (stream : List (Except ε Record)) :
    (pipelineRun env m0 stream).closeCalls = 1 := rfl


/-- The valid-record tail commutes with a metrics offset: batch handling
and the error outcome are independent of the metrics, which shift by the
offset. -/
theorem validStep_shift (ε : Type) (env : RunEnv ε) (current : Record)
    (m₁ m₂ : PipelineMetrics) (batch : List Record) (lc : List (List Record)) :
    validStep env current ⟨m₁.add m₂, batch, lc⟩
      = (⟨m₁.add (validStep env current ⟨m₂, batch, lc⟩).1.metrics,
          (validStep env current ⟨m₂, batch, lc⟩).1.batch,
          (validStep env current ⟨m₂, batch, lc⟩).1.loadCalls⟩,
         (validStep env current ⟨m₂, batch, lc⟩).2) := by
  by_cases hflush : env.batchSize ≤ batch.length + 1
  · cases hload : env.load (batch ++ [current]) with
    | ok n =>
      simp [validStep, hflush, hload, PipelineMetrics.add, Nat.add_assoc]
    | error e =>
      simp [validStep, hflush, hload, PipelineMetrics.add, Nat.add_assoc]
  · simp [validStep, hflush, PipelineMetrics.add, Nat.add_assoc]

/-- The executor loop commutes with a metrics offset: the loop never
reads the counters, so starting from `m₁ + m₂` yields the same batches,
load calls and outcome as starting from `m₂`, with metrics shifted by
`m₁`. -/
theorem runLoop_metrics_shift (ε : Type) (env : RunEnv ε) :
    ∀ (stream : List (Except ε Record)) (m₁ m₂ : PipelineMetrics)
      (batch : List Record) (lc : List (List Record)),
      runLoop env stream ⟨m₁.add m₂, batch, lc⟩
        = (⟨m₁.add (runLoop env stream ⟨m₂, batch, lc⟩).1.metrics,
            (runLoop env stream ⟨m₂, batch, lc⟩).1.batch,
            (runLoop env stream ⟨m₂, batch, lc⟩).1.loadCalls⟩,
           (runLoop env stream ⟨m₂, batch, lc⟩).2) := by
  intro stream
  induction stream with
  | nil => intro m₁ m₂ batch lc; rfl
  | cons item rest ih =>
    intro m₁ m₂ batch lc
    cases item with
    | error e => rfl
    | ok record =>
      have hext :
          { m₁.add m₂ with
              records_extracted := (m₁.add m₂).records_extracted + 1 }
            = m₁.add { m₂ with records_extracted := m₂.records_extracted + 1 } := by
        simp [PipelineMetrics.add, Nat.add_assoc]
      cases happly : applyChain ε env.transforms (some record) with
      | error e =>
        simp [runLoop, happly, hext]
      | ok o =>
        cases o with
        | none =>
          simp only [runLoop, happly]
          rw [hext, ih]
        | some current =>
          have hext2 :
              { (m₁.add m₂) with
                  records_extracted := (m₁.add m₂).records_extracted + 1,
                  records_transformed := (m₁.add m₂).records_transformed + 1 }
                = m₁.add { m₂ with
                    records_extracted := m₂.records_extracted + 1,
                    records_transformed := m₂.records_transformed + 1 } := by
            simp [PipelineMetrics.add, Nat.add_assoc]
          cases hval : env.validator with
          | none =>
            simp only [runLoop, happly, hval]
            rw [hext2, validStep_shift]
            cases hstep : validStep env current
                ⟨{ m₂ with
                    records_extracted := m₂.records_extracted + 1,
                    records_transformed := m₂.records_transformed + 1 },
                  batch, lc⟩ with
            | mk st' err =>
              cases err with
              | none =>
                simp only []
                rcases st' with ⟨m', batch', lc'⟩
                rw [ih]
              | some e => simp
          | some validate =>
            cases hv : validate current with
            | error e =>
              simp [runLoop, happly, hval, hv, hext2]
            | ok errs =>
              cases errs with
              | nil =>
                simp only [runLoop, happly, hval, hv]
                rw [hext2, validStep_shift]
                cases hstep : validStep env current
                    ⟨{ m₂ with
                        records_extracted := m₂.records_extracted + 1,
                        records_transformed := m₂.records_transformed + 1 },
                      batch, lc⟩ with
                | mk st' err =>
                  cases err with
                  | none =>
                    simp only []
                    rcases st' with ⟨m', batch', lc'⟩
                    rw [ih]
                  | some e => simp
              | cons e0 es =>
                simp only [runLoop, happly, hval, hv]
                convert ih m₁
                  { m₂ with
                      records_extracted := m₂.records_extracted + 1,
                      records_transformed := m₂.records_transformed + 1,
                      records_invalid := m₂.records_invalid + 1,
                      errors := m₂.errors ++ [(current, e0 :: es)] } batch lc using 2
                simp [PipelineMetrics.add, Nat.add_assoc, List.append_assoc]

/-- The zero aggregate is neutral for the metrics sum. -/
theorem metrics_add_zero (m : PipelineMetrics) : m.add zeroMetrics = m := by
  cases m
  simp [PipelineMetrics.add, zeroMetrics]

/-- A whole run commutes with a metrics offset. -/
theorem pipelineRun_metrics_shift (ε : Type) (env : RunEnv ε)
    (m₁ m₂ : PipelineMetrics) (stream : List (Except ε Record)) :
    (pipelineRun env (m₁.add m₂) stream).metrics
      = m₁.add (pipelineRun env m₂ stream).metrics := by
  rcases hE : runLoop env stream ⟨m₂, [], []⟩ with ⟨st, err⟩
  have hshift := runLoop_metrics_shift ε env stream m₁ m₂ [] []
  rw [hE] at hshift
  cases err with
  | some e => simp [pipelineRun, hshift, hE]
  | none =>
    by_cases hempty : st.batch.isEmpty
    · simp [pipelineRun, hshift, hE, hempty]
    · cases hload : env.load st.batch with
      | ok n =>
        simp only [pipelineRun, hshift, hE]
        simp only [hempty, hload, if_false, ite_false, Bool.false_eq_true]
        simp [PipelineMetrics.add, Nat.add_assoc]
      | error e =>
        simp only [pipelineRun, hshift, hE]
        simp [hempty, hload]

/-- A run starting from any metrics aggregate ends at that aggregate plus
what the same run contributes from zero: `run` increments, it never
re-initializes. -/
theorem pipelineRun_never_resets (ε : Type) (env : RunEnv ε)
    (m : PipelineMetrics) (stream : List (Except ε Record)) :
    (pipelineRun env m stream).metrics
      = m.add (pipelineRun env zeroMetrics stream).metrics := by
  have h := pipelineRun_metrics_shift ε env m zeroMetrics stream
  rwa [metrics_add_zero] at h

/-- C10: a Pipeline object owns one metrics aggregate created at
construction which `run` continues incrementing: after a first run, the
result of a second `run` on the same object reports the object's
construction-time metrics plus the contributions of **both** runs — not
the second run alone — for all counters and the error log. -/
theorem pipeline_metrics_accumulate (ε : Type) (p : PipelineObj ε)
    (s₁ s₂ : List (Except ε Record)) :
    ((p.run s₁).2.run s₂).1.metrics
      = (p.metrics.add (pipelineRun p.env zeroMetrics s₁).metrics).add
          (pipelineRun p.env zeroMetrics s₂).metrics ∧
    (p.run s₁).1.metrics
      = p.metrics.add (pipelineRun p.env zeroMetrics s₁).metrics := by
  constructor
  · show (pipelineRun p.env (pipelineRun p.env p.metrics s₁).metrics s₂).metrics = _
    rw [pipelineRun_never_resets ε p.env (pipelineRun p.env p.metrics s₁).metrics s₂,
      pipelineRun_never_resets ε p.env p.metrics s₁]
  · exact pipelineRun_never_resets ε p.env p.metrics s₁

end Pipeflow
